import Mathlib

/-!
# Shallow embedding of `src/router.js` (tunnel-steps `Router`)

The router drives a linear multi-step flow from a hash-based location token.
This file embeds the router's methods as pure Lean functions:

* JavaScript object-property lookup on `options.steps` is an association-list
  lookup returning `Option Step`; reading a property of `undefined` raises
  `TypeError`, modelled with `Except JsError`.
* JavaScript `undefined`/`null` string values are `Option String` (`none`);
  truthiness of such a value is `jsTruthy` (`null`/`undefined`/`""` are falsy).
* Indexing an array with an out-of-range or negative index yields `undefined`,
  and using `undefined` as a property key coerces it to the string
  `"undefined"` (`jsString`).
* Observable side effects on collaborators — `step.destroy()`, `step.render()`
  and location writes (`setRoute`) — are recorded in an `Action` log.
* `getDatasFromCache` is modelled as the constructor's default no-op
  (it returns `undefined`, so `render` always receives `datas: null`);
  the cached payload does not influence any control flow verified here.
-/

deriving instance DecidableEq for Except

namespace TunnelSteps

/-- Result object returned by a step's `canTheStepBeDisplayed()` method:
`{ canBeDisplayed, fallbackRoute }`. -/
structure Verdict where
  canBeDisplayed : Bool
  fallbackRoute : Option String
deriving Repr, DecidableEq

/-- A step registered in `options.steps`: its own `route` property (may be
absent), its static `fallbackRoute` property (may be absent), and the value
its `canTheStepBeDisplayed()` method returns. -/
structure Step where
  route : Option String
  fallbackRoute : Option String
  canTheStepBeDisplayed : Verdict
deriving Repr, DecidableEq

/-- Router construction options (`defaultRoute`, `stepsOrder`, `steps`).
`steps` is the JS object as an association list keyed by route string. -/
structure Options where
  defaultRoute : Option String
  stepsOrder : List String
  steps : List (String × Step)
deriving Repr, DecidableEq

/-- The `stepRedirected` marker; the constructor initialises it to `{}`, whose
`redirect` and `previousRoute` properties read as `undefined` (falsy). -/
structure Redirect where
  redirect : Bool := false
  previousRoute : Option String := none
deriving Repr, DecidableEq

/-- Mutable router-instance state. `currentRoute` and `previousRoute` are
`undefined` until first assigned. -/
structure RouterState where
  currentRoute : Option String := none
  previousRoute : Option String := none
  reverseNavigation : Bool := false
  stepCreated : Bool := false
  applicationReady : Bool := false
  stepRedirected : Redirect := {}
deriving Repr, DecidableEq

/-- Observable effects on collaborators: `destroy` and `render` calls on step
objects, and location writes performed by `setRoute`. -/
inductive Action where
  | destroy (route : String)
  | render (route : String)
  | write (route : String)
deriving Repr, DecidableEq

/-- Runtime error of the JS engine (reading a property of `undefined`). -/
inductive JsError where
  | typeError
deriving Repr, DecidableEq

/-- Truthiness of a JS string-or-nullish value: `null`, `undefined` and the
empty string are falsy. -/
def jsTruthy : Option String → Bool
  | none => false
  | some s => s != ""

/-- Coercion of a string-or-undefined value to a property key / written token:
`undefined` becomes the string `"undefined"`. -/
def jsString : Option String → String
  | none => "undefined"
  | some s => s

/-- `this.options.steps[k]`: property lookup on the steps object. -/
def lookupStep (opts : Options) (k : String) : Option Step :=
  (opts.steps.find? (fun p => p.1 == k)).map (fun p => p.2)

/-- JS `String.prototype.split` with a one-character separator, on the
character list of the string: every separator occurrence starts a new chunk
(so `"a#b#c"` gives `["a","b","c"]` and `"a#"` gives `["a",""]`). -/
def splitChars (sep : Char) : List Char → List (List Char)
  | [] => [[]]
  | c :: cs =>
    let rest := splitChars sep cs
    if c == sep then [] :: rest
    else
      match rest with
      | [] => [[c]]
      | chunk :: more => (c :: chunk) :: more

/-- JS `url.split('#')[1]`: the second chunk, `undefined` when there is no
`'#'` in the url. -/
def splitHashSecond (url : String) : Option String :=
  match splitChars '#' url.data with
  | _ :: second :: _ => some (String.mk second)
  | _ => none

/-- A `hashchange` event payload: only its `oldURL` property is consumed. -/
structure HashEvent where
  oldURL : Option String
deriving Repr, DecidableEq

/-- `getPreviousRoute(e)`: `e && e.oldURL ? e.oldURL.split('#')[1] : null`. -/
def getPreviousRoute (e : Option HashEvent) : Option String :=
  match e with
  | some ev =>
    match ev.oldURL with
    | some url => if url != "" then splitHashSecond url else none
    | none => none
  | none => none

/-- `checkIfTheStepCanBeDisplay({route, event})`: if the route is registered,
return the step's own verdict; otherwise compute a fallback from the previous
route's step (its `fallbackRoute` property if truthy, else the default route).
Reading `steps[previousRoute].fallbackRoute` when `previousRoute` is truthy
but unregistered raises `TypeError`. -/
def checkIfTheStepCanBeDisplay (opts : Options) (route : String)
    (event : Option HashEvent) : Except JsError Verdict :=
  match lookupStep opts route with
  | some st => .ok st.canTheStepBeDisplayed
  | none =>
    let fallbackRoute := opts.defaultRoute
    let previousRoute := getPreviousRoute event
    if jsTruthy previousRoute then
      match lookupStep opts (jsString previousRoute) with
      | some prevStep =>
        let fallbackRoute :=
          if jsTruthy prevStep.fallbackRoute then prevStep.fallbackRoute
          else fallbackRoute
        .ok { canBeDisplayed := false, fallbackRoute := fallbackRoute }
      | none => .error .typeError
    else
      .ok { canBeDisplayed := false, fallbackRoute := fallbackRoute }

/-- `createStep({route})`: calls `steps[route].render({datas})` (a `TypeError`
if the route is unregistered) and then sets `applicationReady` to true if it
was not already. -/
def createStep (opts : Options) (route : Option String) (s : RouterState) :
    Except JsError (RouterState × List Action) :=
  match lookupStep opts (jsString route) with
  | some _ =>
    .ok ({ s with applicationReady := true }, [.render (jsString route)])
  | none => .error .typeError

/-- `destroyStep(route)`: calls `steps[route].destroy()` (a `TypeError` if the
route is unregistered). -/
def destroyStep (opts : Options) (route : String) : Except JsError Action :=
  match lookupStep opts route with
  | some _ => .ok (.destroy route)
  | none => .error .typeError

/-- First half of `stepCanBeDisplayed(e)`: when an event is present, resolve
the previous route (from the redirect marker if it is pending, else from the
event); if it is truthy, destroy it, create the current step and set
`stepCreated`. -/
def stepCanBeDisplayedPhase1 (opts : Options) (e : Option HashEvent)
    (s : RouterState) : Except JsError (RouterState × List Action) :=
  match e with
  | some _ =>
    let prev :=
      if s.stepRedirected.redirect then s.stepRedirected.previousRoute
      else getPreviousRoute e
    let sPrev := { s with previousRoute := prev }
    if jsTruthy prev then
      match destroyStep opts (jsString prev) with
      | .error err => .error err
      | .ok d =>
        match createStep opts sPrev.currentRoute sPrev with
        | .error err => .error err
        | .ok (sC, logC) => .ok ({ sC with stepCreated := true }, d :: logC)
    else .ok (sPrev, [])
  | none => .ok (s, [])

/-- `stepCanBeDisplayed(e)`: run the destroy-then-create phase, then, if
`stepCreated` is still false, create the current step; finally reset the
redirect marker's `redirect` flag. -/
def stepCanBeDisplayed (opts : Options) (e : Option HashEvent)
    (s : RouterState) : Except JsError (RouterState × List Action) :=
  match stepCanBeDisplayedPhase1 opts e s with
  | .error err => .error err
  | .ok (s1, log1) =>
    match (if !s1.stepCreated then createStep opts s1.currentRoute s1
           else .ok (s1, [])) with
    | .error err => .error err
    | .ok (s2, log2) =>
      let s3 :=
        if s2.stepRedirected.redirect then
          { s2 with stepRedirected := { s2.stepRedirected with redirect := false } }
        else s2
      .ok (s3, log1 ++ log2)

/-- `stepCantBeDisplayed(e, fallbackRoute)`: record the redirect marker, clear
`previousRoute`, and write the fallback route to the location if it is
truthy. -/
def stepCantBeDisplayed (e : Option HashEvent) (fallbackRoute : Option String)
    (s : RouterState) : RouterState × List Action :=
  let s1 := { s with
    stepRedirected := { redirect := true, previousRoute := getPreviousRoute e },
    previousRoute := none }
  if jsTruthy fallbackRoute then (s1, [.write (jsString fallbackRoute)])
  else (s1, [])

/-- `hashChanged(e)`: read the current location token, run the transition
gate, record `currentRoute`, and dispatch on the verdict.  `hash` is the token
returned by `getRoute()` (the location hash without its leading `#`). -/
def hashChanged (opts : Options) (hash : String) (e : Option HashEvent)
    (s : RouterState) : Except JsError (RouterState × List Action) :=
  match checkIfTheStepCanBeDisplay opts hash e with
  | .error err => .error err
  | .ok datas =>
    let s1 := { s with currentRoute := some hash }
    if datas.canBeDisplayed then
      stepCanBeDisplayed opts e s1
    else
      .ok (stepCantBeDisplayed e datas.fallbackRoute s1)

/-- JS `Array.prototype.findIndex` specialised to the strict-equality
predicate `currentRoute => currentRoute === route`: the index of the first
matching entry, `-1` when none matches. -/
def findIndexFrom (r : String) : List String → Int
  | [] => -1
  | x :: xs =>
    if x == r then 0
    else
      let i := findIndexFrom r xs
      if i < 0 then -1 else i + 1

/-- `getIndexFromRoute(route)`: `stepsOrder.findIndex(cur => cur === route)`.
The argument is the raw state field, which may be `undefined` (strictly equal
to no string entry, hence `-1`). -/
def getIndexFromRoute (opts : Options) (route : Option String) : Int :=
  match route with
  | none => -1
  | some r => findIndexFrom r opts.stepsOrder

/-- JS array indexing with an `Int` index: negative or out-of-range indices
yield `undefined`. -/
def jsIndex (l : List String) (i : Int) : Option String :=
  if i < 0 then none else l.get? i.toNat

/-- `getPreviousStepRoute(route)`: the `route` property of
`steps[stepsOrder[index-1]]`, or `'end'` if that step is undefined. -/
def getPreviousStepRoute (opts : Options) (route : Option String) :
    Option String :=
  match lookupStep opts
      (jsString (jsIndex opts.stepsOrder (getIndexFromRoute opts route - 1))) with
  | some nextStep => nextStep.route
  | none => some "end"

/-- `getNextStepRoute(route)`: the `route` property of
`steps[stepsOrder[index+1]]`, or `'end'` if that step is undefined. -/
def getNextStepRoute (opts : Options) (route : Option String) :
    Option String :=
  match lookupStep opts
      (jsString (jsIndex opts.stepsOrder (getIndexFromRoute opts route + 1))) with
  | some nextStep => nextStep.route
  | none => some "end"

/-- `triggerNext()`: clear `reverseNavigation`, remember the current route as
previous, and if the next route is not the literal `'end'`, write it to the
location and return `true`; else return `false`.  Returns the updated state,
the action log and the boolean result. -/
def triggerNext (opts : Options) (s : RouterState) :
    RouterState × List Action × Bool :=
  let s1 := { s with reverseNavigation := false, previousRoute := s.currentRoute }
  let nextRoute := getNextStepRoute opts s1.currentRoute
  if nextRoute != some "end" then
    (s1, [.write (jsString nextRoute)], true)
  else
    (s1, [], false)

/-- `triggerPrevious()`: set `reverseNavigation`, remember the current route
as previous, and unconditionally write `getPreviousStepRoute(previousRoute)`
to the location (the sentinel `'end'` included). -/
def triggerPrevious (opts : Options) (s : RouterState) :
    RouterState × List Action :=
  let s1 := { s with reverseNavigation := true, previousRoute := s.currentRoute }
  let nextRoute := getPreviousStepRoute opts s1.previousRoute
  (s1, [.write (jsString nextRoute)])

/-- The registry shape the spec's data model prescribes (§3): routes in
`stepsOrder` are unique, every ordered route has a registered step, every
registered step is listed in the order and carries a `route` property equal to
its registry key, and no real route collides with the JS coercion artefact
`"undefined"` or the sentinel `"end"`. -/
def WellFormed (opts : Options) : Prop :=
  opts.stepsOrder.Nodup ∧
  (∀ k ∈ opts.stepsOrder, (lookupStep opts k).isSome) ∧
  (∀ p ∈ opts.steps, p.1 ∈ opts.stepsOrder ∧ p.2.route = some p.1) ∧
  "undefined" ∉ opts.stepsOrder ∧
  "end" ∉ opts.stepsOrder

instance (opts : Options) : Decidable (WellFormed opts) := by
  unfold WellFormed
  infer_instance

/-- A well-behaved step fixture whose `route` property equals its key and
whose `canTheStepBeDisplayed()` allows display. -/
def okStep (r : String) : Step :=
  { route := some r, fallbackRoute := none,
    canTheStepBeDisplayed := { canBeDisplayed := true, fallbackRoute := none } }

/-- Concrete three-step registry matching the spec's running example
`stepsOrder = ["a","b","c"]`. -/
def opts1 : Options :=
  { defaultRoute := some "a",
    stepsOrder := ["a", "b", "c"],
    steps := [("a", okStep "a"), ("b", okStep "b"), ("c", okStep "c")] }

/-- Freshly constructed router state (the constructor's field initialisers). -/
def s0 : RouterState := {}

/-- Router state after an allowed transition to `"b"` that destroyed `"a"`:
`stepCreated` is true and is never reset by the code. -/
def midState : RouterState :=
  { currentRoute := some "b", previousRoute := some "a",
    reverseNavigation := false, stepCreated := true,
    applicationReady := true, stepRedirected := {} }

/-- A step fixture whose `route` property is absent (`undefined`). -/
def noRouteStep : Step :=
  { route := none, fallbackRoute := none,
    canTheStepBeDisplayed := { canBeDisplayed := true, fallbackRoute := none } }

/-- Registry whose second step lacks a `route` property, exercising the
Sequencer's reliance on the neighbour step's own `route` field. -/
def optsNoRoute : Options :=
  { defaultRoute := some "p",
    stepsOrder := ["p", "q"],
    steps := [("p", okStep "p"), ("q", noRouteStep)] }

theorem findIndexFrom_of_not_mem {r : String} {l : List String}
    (h : r ∉ l) : findIndexFrom r l = -1 := by
  induction l with
  | nil => rfl
  | cons x xs ih =>
    simp only [List.mem_cons, not_or] at h
    simp only [findIndexFrom, beq_iff_eq]
    rw [if_neg (fun hx => h.1 hx.symm)]
    simp [ih h.2]

theorem findIndexFrom_of_mem {r : String} {l : List String}
    (h : r ∈ l) : ∃ i : ℕ, findIndexFrom r l = (i : Int) ∧ l.get? i = some r := by
  induction l with
  | nil => cases h
  | cons x xs ih =>
    by_cases hx : x = r
    · exact ⟨0, by simp [findIndexFrom, hx], by simp [hx]⟩
    · have hr : r ∈ xs := by
        cases h with
        | head => exact absurd rfl hx
        | tail _ h => exact h
      obtain ⟨i, hi, hget⟩ := ih hr
      refine ⟨i + 1, ?_, by simpa using hget⟩
      simp only [findIndexFrom, beq_iff_eq, if_neg hx, hi]
      have : ¬ ((i : Int) < 0) := by omega
      rw [if_neg this]
      push_cast
      ring

theorem findIndexFrom_of_nodup_get {l : List String} {j : ℕ} {k : String}
    (hnd : l.Nodup) (h : l.get? j = some k) : findIndexFrom k l = (j : Int) := by
  induction l generalizing j with
  | nil => simp at h
  | cons x xs ih =>
    cases j with
    | zero =>
      simp only [List.get?] at h
      injection h with h
      simp [findIndexFrom, h]
    | succ j =>
      simp only [List.get?] at h
      have hk : k ∈ xs := List.get?_mem h
      have hx : x ≠ k := by
        intro hxk
        exact (List.nodup_cons.mp hnd).1 (hxk ▸ hk)
      have := ih (List.nodup_cons.mp hnd).2 h
      simp only [findIndexFrom, beq_iff_eq, if_neg hx, this]
      have : ¬ ((j : Int) < 0) := by omega
      rw [if_neg this]
      push_cast
      ring

theorem lookupStep_mem {opts : Options} {k : String} {st : Step}
    (hwf : WellFormed opts) (h : lookupStep opts k = some st) :
    k ∈ opts.stepsOrder ∧ st.route = some k := by
  unfold lookupStep at h
  cases hfind : opts.steps.find? (fun p => p.1 == k) with
  | none => simp [hfind] at h
  | some pr =>
    simp only [hfind, Option.map_some] at h
    injection h with h
    have hmem : pr ∈ opts.steps := List.mem_of_find?_eq_some hfind
    have hkey : pr.1 = k := by
      have := List.find?_some hfind
      simpa [beq_iff_eq] using this
    obtain ⟨hord, hroute⟩ := hwf.2.2.1 pr hmem
    exact ⟨hkey ▸ hord, by rw [← h, hroute, hkey]⟩

theorem lookupStep_of_mem {opts : Options} {k : String}
    (hwf : WellFormed opts) (h : k ∈ opts.stepsOrder) :
    ∃ st, lookupStep opts k = some st ∧ st.route = some k := by
  have hsome := hwf.2.1 k h
  cases hlk : lookupStep opts k with
  | none => simp [hlk] at hsome
  | some st => exact ⟨st, rfl, (lookupStep_mem hwf hlk).2⟩

theorem lookupStep_undefined {opts : Options} (hwf : WellFormed opts) :
    lookupStep opts "undefined" = none := by
  cases hlk : lookupStep opts "undefined" with
  | none => rfl
  | some st => exact absurd (lookupStep_mem hwf hlk).1 hwf.2.2.2.1

/-- C1: when the candidate route is unregistered and the prior location token
is a non-empty string that is also unregistered, the transition gate does not
return `allowed = false` with the default fallback — it raises a `TypeError`
(the code reads `steps[previousRoute].fallbackRoute` on `undefined`).  Here
`"zzz"` is the candidate and `"yyy"`, parsed from the event's `oldURL`, is the
unregistered prior token. -/
theorem c1_unregistered_prior_token_raises :
    checkIfTheStepCanBeDisplay opts1 "zzz"
      (some { oldURL := some "http://t/#yyy" }) = .error .typeError := by
  decide

/-- C2 counterexample: `"zzz"` is absent from `opts1`'s registry, so the claim
demands `getNextStepRoute` return the sentinel `"end"`; the code instead
returns `"a"` — `findIndex` yields `-1` for an absent route, `-1 + 1` indexes
the first entry. -/
theorem c2_counterexample :
    ¬ (getNextStepRoute opts1 (some "zzz") = some "end") ∧
    getNextStepRoute opts1 (some "zzz") = some "a" := by
  decide

/-- C2 (amended): over a well-formed registry, `next` returns the route at
position + 1 when one exists, and returns `"end"` when the route is the last
entry; but for a route absent from the registry it returns the first entry's
route (when the order is non-empty), not `"end"`. -/
theorem c2_next_step_route_characterisation (opts : Options)
    (hwf : WellFormed opts) :
    (∀ (i : ℕ) (r k : String),
        findIndexFrom r opts.stepsOrder = (i : Int) →
        opts.stepsOrder.get? (i + 1) = some k →
        getNextStepRoute opts (some r) = some k) ∧
    (∀ (i : ℕ) (r : String),
        findIndexFrom r opts.stepsOrder = (i : Int) →
        opts.stepsOrder.length = i + 1 →
        getNextStepRoute opts (some r) = some "end") ∧
    (∀ (r k : String) (rest : List String),
        r ∉ opts.stepsOrder → opts.stepsOrder = k :: rest →
        getNextStepRoute opts (some r) = some k) := by
  refine ⟨?_, ?_, ?_⟩
  · intro i r k hidx hget
    simp only [getNextStepRoute, getIndexFromRoute, jsIndex, hidx]
    have h1 : ¬ ((i : Int) + 1 < 0) := by omega
    have h2 : ((i : Int) + 1).toNat = i + 1 := by omega
    rw [if_neg h1, h2, hget]
    obtain ⟨st, hst, hroute⟩ := lookupStep_of_mem hwf (List.get?_mem hget)
    simp [jsString, hst, hroute]
  · intro i r hidx hlen
    simp only [getNextStepRoute, getIndexFromRoute, jsIndex, hidx]
    have h1 : ¬ ((i : Int) + 1 < 0) := by omega
    have h2 : ((i : Int) + 1).toNat = i + 1 := by omega
    have h3 : opts.stepsOrder.get? (i + 1) = none := by
      rw [List.get?_eq_none]
      omega
    rw [if_neg h1, h2, h3]
    simp [jsString, lookupStep_undefined hwf]
  · intro r k rest hnm horder
    simp only [getNextStepRoute, getIndexFromRoute, jsIndex,
      findIndexFrom_of_not_mem hnm]
    have h1 : ¬ ((-1 : Int) + 1 < 0) := by omega
    have h2 : ((-1 : Int) + 1).toNat = 0 := by omega
    have hk : k ∈ opts.stepsOrder := by rw [horder]; exact List.mem_cons_self k rest
    rw [if_neg h1, h2, horder]
    obtain ⟨st, hst, hroute⟩ := lookupStep_of_mem hwf hk
    simp only [List.get?]
    simp [jsString, hst, hroute]

/-- C2 witness: on the concrete registry `["a","b","c"]`, the amended
characterisation gives `next("a") = "b"`, `next("c") = "end"`, and
`next("zzz") = "a"` for the absent route `"zzz"`. -/
theorem c2_next_step_route_characterisation_witness :
    getNextStepRoute opts1 (some "a") = some "b" ∧
    getNextStepRoute opts1 (some "c") = some "end" ∧
    getNextStepRoute opts1 (some "zzz") = some "a" :=
  ⟨(c2_next_step_route_characterisation opts1 (by decide)).1 0 "a" "b"
      (by decide) (by decide),
   (c2_next_step_route_characterisation opts1 (by decide)).2.1 2 "c"
      (by decide) (by decide),
   (c2_next_step_route_characterisation opts1 (by decide)).2.2 "zzz" "a"
      ["b", "c"] (by decide) (by decide)⟩

/-- C3: `stepCreated` is not a per-transition flag — the code never resets it.
First transition (to `"b"`, previous `"a"` resolvable) destroys and renders
and leaves `stepCreated = true`.  A later allowed transition to `"a"` whose
event carries an `oldURL` without a `'#'` (no previous route resolvable)
produces an empty action list: the step at `"a"` is never rendered, because
the create performed in the earlier transition suppresses it. -/
theorem c3_stale_created_flag_suppresses_later_create :
    hashChanged opts1 "b" (some { oldURL := some "http://t/#a" }) s0
      = .ok (midState, [.destroy "a", .render "b"]) ∧
    hashChanged opts1 "a" (some { oldURL := some "http://t/b" }) midState
      = .ok ({ midState with currentRoute := some "a", previousRoute := none },
             []) := by
  decide

theorem jsIndex_coe (l : List String) (n : ℕ) : jsIndex l (n : Int) = l.get? n := by
  unfold jsIndex
  rw [if_neg (by omega)]
  simp

theorem jsIndex_mem {l : List String} {i : Int} {k : String}
    (h : jsIndex l i = some k) : k ∈ l := by
  unfold jsIndex at h
  split at h
  · cases h
  · exact List.get?_mem h

theorem getNextStepRoute_wf {opts : Options} (hwf : WellFormed opts)
    (r : String) :
    getNextStepRoute opts (some r) =
      match jsIndex opts.stepsOrder (findIndexFrom r opts.stepsOrder + 1) with
      | some k => some k
      | none => some "end" := by
  unfold getNextStepRoute getIndexFromRoute
  cases hj : jsIndex opts.stepsOrder (findIndexFrom r opts.stepsOrder + 1) with
  | none => simp [hj, jsString, lookupStep_undefined hwf]
  | some k =>
    obtain ⟨st, hst, hroute⟩ := lookupStep_of_mem hwf (jsIndex_mem hj)
    simp [hj, jsString, hst, hroute]

theorem getPreviousStepRoute_wf {opts : Options} (hwf : WellFormed opts)
    (r : String) :
    getPreviousStepRoute opts (some r) =
      match jsIndex opts.stepsOrder (findIndexFrom r opts.stepsOrder - 1) with
      | some k => some k
      | none => some "end" := by
  unfold getPreviousStepRoute getIndexFromRoute
  cases hj : jsIndex opts.stepsOrder (findIndexFrom r opts.stepsOrder - 1) with
  | none => simp [hj, jsString, lookupStep_undefined hwf]
  | some k =>
    obtain ⟨st, hst, hroute⟩ := lookupStep_of_mem hwf (jsIndex_mem hj)
    simp [hj, jsString, hst, hroute]

/-- C4: on a location change to a registered route `a` whose step allows
display, with an event carrying a resolvable (truthy, registered) previous
route `p`, the lifecycle manager performs exactly one destroy on `p` followed
by exactly one render on `a`, and nothing else: the action log is precisely
`[destroy p, render a]`. -/
theorem c4_destroy_then_render (opts : Options) (a p : String) (st : Step)
    (e : HashEvent) (s : RouterState)
    (hstep : lookupStep opts a = some st)
    (hallow : st.canTheStepBeDisplayed.canBeDisplayed = true)
    (hprev : (if s.stepRedirected.redirect then s.stepRedirected.previousRoute
              else getPreviousRoute (some e)) = some p)
    (hp : p ≠ "")
    (hpstep : (lookupStep opts p).isSome) :
    ∃ s2, hashChanged opts a (some e) s
        = .ok (s2, [Action.destroy p, Action.render a]) := by
  obtain ⟨pst, hpst⟩ := Option.isSome_iff_exists.mp hpstep
  have hjs : jsTruthy (some p) = true := by simp [jsTruthy, hp]
  cases hred : s.stepRedirected.redirect with
  | false =>
    rw [hred] at hprev
    simp only [Bool.false_eq_true, if_false] at hprev
    refine ⟨{ s with
        currentRoute := some a
        previousRoute := some p
        stepCreated := true
        applicationReady := true }, ?_⟩
    simp [hashChanged, checkIfTheStepCanBeDisplay, hstep, hallow,
      stepCanBeDisplayed, stepCanBeDisplayedPhase1, hred, hprev, hjs,
      destroyStep, createStep, jsString, hpst]
  | true =>
    rw [hred] at hprev
    simp only [if_true] at hprev
    refine ⟨{ s with
        currentRoute := some a
        previousRoute := some p
        stepCreated := true
        applicationReady := true
        stepRedirected := { redirect := false
                            previousRoute := s.stepRedirected.previousRoute } }, ?_⟩
    simp [hashChanged, checkIfTheStepCanBeDisplay, hstep, hallow,
      stepCanBeDisplayed, stepCanBeDisplayedPhase1, hred, hprev, hjs,
      destroyStep, createStep, jsString, hpst]

/-- C4 witness: on the concrete registry, the location change to `"b"` with
previous route `"a"` logs exactly `[destroy "a", render "b"]`. -/
theorem c4_destroy_then_render_witness :
    ∃ s2, hashChanged opts1 "b" (some { oldURL := some "http://t/#a" }) s0
        = .ok (s2, [Action.destroy "a", Action.render "b"]) :=
  c4_destroy_then_render opts1 "b" "a" (okStep "b")
    { oldURL := some "http://t/#a" } s0 (by decide) (by decide) (by decide)
    (by decide) (by decide)

theorem createStep_ok_applicationReady {opts : Options} {route : Option String}
    {s : RouterState} {x : RouterState × List Action}
    (h : createStep opts route s = .ok x) : x.1.applicationReady = true := by
  unfold createStep at h
  cases hlk : lookupStep opts (jsString route) <;> rw [hlk] at h
  · cases h
  · injection h with h
    rw [← h]

theorem phase1_applicationReady {opts : Options} {e : Option HashEvent}
    {s s1 : RouterState} {log1 : List Action}
    (h : stepCanBeDisplayedPhase1 opts e s = .ok (s1, log1)) :
    (s.applicationReady = true → s1.applicationReady = true) ∧
    (∀ r, Action.render r ∈ log1 → s1.applicationReady = true) := by
  unfold stepCanBeDisplayedPhase1 at h
  cases e with
  | none =>
    injection h with h
    injection h with h1 h2
    subst h1; subst h2
    exact ⟨id, by simp⟩
  | some ev =>
    simp only at h
    split at h <;> split at h
    all_goals try
      (injection h with h
       injection h with h1 h2
       subst h1; subst h2
       exact ⟨id, by simp⟩)
    all_goals
      (split at h
       · simp at h
       · split at h
         · simp at h
         · rename_i sC logC heq
           injection h with h
           injection h with h1 h2
           subst h1; subst h2
           have := createStep_ok_applicationReady heq
           exact ⟨fun _ => by simpa using this, fun r _ => by simpa using this⟩)

theorem stepCanBeDisplayed_applicationReady {opts : Options}
    {e : Option HashEvent} {s s2 : RouterState} {log : List Action}
    (h : stepCanBeDisplayed opts e s = .ok (s2, log)) :
    (s.applicationReady = true → s2.applicationReady = true) ∧
    (∀ r, Action.render r ∈ log → s2.applicationReady = true) := by
  unfold stepCanBeDisplayed at h
  split at h
  · simp at h
  · rename_i s1 log1 heq1
    split at h
    · simp at h
    · rename_i s2a log2 heq2
      injection h with h
      injection h with h1 h2
      subst h1; subst h2
      have hp1 := phase1_applicationReady heq1
      split at heq2
      · have := createStep_ok_applicationReady heq2
        constructor
        · intro _
          split <;> simpa using this
        · intro r _
          split <;> simpa using this
      · injection heq2 with heq2
        injection heq2 with e1 e2
        subst e1; subst e2
        constructor
        · intro hs
          have := hp1.1 hs
          split <;> simpa using this
        · intro r hr
          simp only [List.append_nil] at hr
          have := hp1.2 r hr
          split <;> simpa using this

/-- C5: `applicationReady` is monotone.  A notification that succeeds
preserves it and sets it whenever a render was performed, and `triggerNext` /
`triggerPrevious` never touch it; no router operation resets it to false. -/
theorem c5_applicationReady_monotone :
    (∀ (opts : Options) (hash : String) (e : Option HashEvent)
        (s s2 : RouterState) (log : List Action),
        hashChanged opts hash e s = .ok (s2, log) →
        (s.applicationReady = true → s2.applicationReady = true) ∧
        (∀ r, Action.render r ∈ log → s2.applicationReady = true)) ∧
    (∀ (opts : Options) (s : RouterState),
        (triggerNext opts s).1.applicationReady = s.applicationReady) ∧
    (∀ (opts : Options) (s : RouterState),
        (triggerPrevious opts s).1.applicationReady = s.applicationReady) := by
  refine ⟨?_, ?_, ?_⟩
  · intro opts hash e s s2 log h
    unfold hashChanged at h
    split at h
    · simp at h
    · rename_i v heq
      split at h
      · have := stepCanBeDisplayed_applicationReady h
        exact ⟨fun hs => this.1 (by simpa using hs), this.2⟩
      · injection h with h
        unfold stepCantBeDisplayed at h
        split at h
        all_goals
          (injection h with h1 h2
           subst h1; subst h2
           exact ⟨fun hs => by simpa using hs, fun r hr => by simp at hr⟩)
  · intro opts s
    simp only [triggerNext]
    split <;> rfl
  · intro opts s
    rfl

/-- C5 witness: the first allowed transition of the concrete registry renders
`"b"` and leaves `applicationReady` true. -/
theorem c5_applicationReady_monotone_witness :
    (s0.applicationReady = true → midState.applicationReady = true) ∧
    (∀ r, Action.render r ∈ [Action.destroy "a", Action.render "b"] →
        midState.applicationReady = true) :=
  c5_applicationReady_monotone.1 opts1 "b"
    (some { oldURL := some "http://t/#a" }) s0 midState
    [Action.destroy "a", Action.render "b"] (by decide)

/-- C6: on a disallowed transition the redirect marker is set to
`{redirect: true, previousRoute: route resolved from the event}`,
`previousRoute` is cleared, the fallback route is written to the location
exactly when one was returned (truthy), and no destroy or render is
performed. -/
theorem c6_disallowed_transition (opts : Options) (hash : String)
    (e : Option HashEvent) (s : RouterState) (v : Verdict)
    (hv : checkIfTheStepCanBeDisplay opts hash e = .ok v)
    (hnot : v.canBeDisplayed = false) :
    ∃ s2 log, hashChanged opts hash e s = .ok (s2, log) ∧
      s2.stepRedirected =
        { redirect := true, previousRoute := getPreviousRoute e } ∧
      s2.previousRoute = none ∧
      (jsTruthy v.fallbackRoute = true →
        log = [Action.write (jsString v.fallbackRoute)]) ∧
      (jsTruthy v.fallbackRoute = false → log = []) ∧
      (∀ r, Action.destroy r ∉ log ∧ Action.render r ∉ log) := by
  cases ht : jsTruthy v.fallbackRoute with
  | true =>
    refine ⟨{ s with
        currentRoute := some hash
        previousRoute := none
        stepRedirected := { redirect := true
                            previousRoute := getPreviousRoute e } },
      [Action.write (jsString v.fallbackRoute)], ?_, rfl, rfl,
      fun _ => rfl, by simp [ht], by simp⟩
    simp [hashChanged, hv, hnot, stepCantBeDisplayed, ht]
  | false =>
    refine ⟨{ s with
        currentRoute := some hash
        previousRoute := none
        stepRedirected := { redirect := true
                            previousRoute := getPreviousRoute e } },
      [], ?_, rfl, rfl, by simp [ht], fun _ => rfl, by simp⟩
    simp [hashChanged, hv, hnot, stepCantBeDisplayed, ht]

/-- C6 witness: a location change to the unregistered route `"zzz"` with no
event redirects to the default route `"a"` with the marker set and
`previousRoute` cleared. -/
theorem c6_disallowed_transition_witness :
    ∃ s2, hashChanged opts1 "zzz" none s0 = .ok (s2, [Action.write "a"]) ∧
      s2.stepRedirected.redirect = true ∧ s2.previousRoute = none := by
  obtain ⟨s2, log, heq, hred, hprev, htrue, hfalse, hnodes⟩ :=
    c6_disallowed_transition opts1 "zzz" none s0
      { canBeDisplayed := false, fallbackRoute := some "a" } (by decide) rfl
  refine ⟨s2, ?_, by rw [hred], hprev⟩
  rw [heq, htrue (by decide)]
  rfl

/-- C7: over a well-formed registry, `triggerNext()` at the last entry of
`stepsOrder` returns false with an empty action log (no location write, no
destroy, no create); at a position with a successor it writes the successor
route to the location and returns true. -/
theorem c7_triggerNext_boundary (opts : Options) (hwf : WellFormed opts)
    (s : RouterState) (r : String) (hcur : s.currentRoute = some r) :
    (findIndexFrom r opts.stepsOrder = (opts.stepsOrder.length : Int) - 1 →
        triggerNext opts s =
          ({ s with reverseNavigation := false, previousRoute := s.currentRoute },
           [], false)) ∧
    (∀ (i : ℕ) (k : String),
        findIndexFrom r opts.stepsOrder = (i : Int) →
        opts.stepsOrder.get? (i + 1) = some k →
        triggerNext opts s =
          ({ s with reverseNavigation := false, previousRoute := s.currentRoute },
           [Action.write k], true)) := by
  constructor
  · intro hlast
    have hnext : getNextStepRoute opts (some r) = some "end" := by
      rw [getNextStepRoute_wf hwf, hlast]
      have hj : jsIndex opts.stepsOrder ((opts.stepsOrder.length : Int) - 1 + 1)
          = none := by
        unfold jsIndex
        rw [if_neg (by omega)]
        rw [List.get?_eq_none]
        omega
      rw [hj]
    simp only [triggerNext, hcur, hnext]
    simp
  · intro i k hidx hget
    have hk : k ∈ opts.stepsOrder := List.get?_mem hget
    have hkend : k ≠ "end" := fun hke => hwf.2.2.2.2 (hke ▸ hk)
    have hnext : getNextStepRoute opts (some r) = some k := by
      rw [getNextStepRoute_wf hwf, hidx]
      have : ((i : Int) + 1) = ((i + 1 : ℕ) : Int) := by push_cast; ring
      rw [this, jsIndex_coe, hget]
    simp only [triggerNext, hcur, hnext]
    simp [jsString, hkend]

/-- C7 witness: on the concrete registry, `triggerNext` at `"c"` (last entry)
returns false with no write, and at `"a"` writes `"b"` and returns true. -/
theorem c7_triggerNext_boundary_witness :
    triggerNext opts1 { s0 with currentRoute := some "c" } =
      ({ s0 with
          currentRoute := some "c"
          reverseNavigation := false
          previousRoute := some "c" }, [], false) ∧
    triggerNext opts1 { s0 with currentRoute := some "a" } =
      ({ s0 with
          currentRoute := some "a"
          reverseNavigation := false
          previousRoute := some "a" }, [Action.write "b"], true) :=
  ⟨(c7_triggerNext_boundary opts1 (by decide)
      { s0 with currentRoute := some "c" } "c" rfl).1 (by decide),
   (c7_triggerNext_boundary opts1 (by decide)
      { s0 with currentRoute := some "a" } "a" rfl).2 0 "b" (by decide)
      (by decide)⟩

/-- C8: over a well-formed registry, for every route in `stepsOrder` whose
`next` is not the sentinel `"end"`, `previous (next R)` returns `R`. -/
theorem c8_next_previous_roundtrip (opts : Options) (hwf : WellFormed opts)
    (r : String) (hr : r ∈ opts.stepsOrder)
    (hne : getNextStepRoute opts (some r) ≠ some "end") :
    getPreviousStepRoute opts (getNextStepRoute opts (some r)) = some r := by
  obtain ⟨i, hidx, hget⟩ := findIndexFrom_of_mem hr
  have hnext := getNextStepRoute_wf hwf r
  rw [hidx] at hnext
  cases hj : jsIndex opts.stepsOrder ((i : Int) + 1) with
  | none =>
    rw [hj] at hnext
    exact absurd hnext hne
  | some k =>
    rw [hj] at hnext
    have hcast : ((i : Int) + 1) = ((i + 1 : ℕ) : Int) := by push_cast; ring
    have hk : opts.stepsOrder.get? (i + 1) = some k := by
      rw [← jsIndex_coe, ← hcast, hj]
    have hfk : findIndexFrom k opts.stepsOrder = ((i + 1 : ℕ) : Int) :=
      findIndexFrom_of_nodup_get hwf.1 hk
    rw [hnext, getPreviousStepRoute_wf hwf, hfk]
    have hback : ((i + 1 : ℕ) : Int) - 1 = (i : Int) := by push_cast; ring
    rw [hback, jsIndex_coe, hget]

/-- C8 witness: on the concrete registry, `previous (next "a") = "a"`. -/
theorem c8_next_previous_roundtrip_witness :
    getPreviousStepRoute opts1 (getNextStepRoute opts1 (some "a")) = some "a" :=
  c8_next_previous_roundtrip opts1 (by decide) "a" (by decide) (by decide)

/-- C9: `triggerPrevious()` always sets `reverseNavigation`, records
`previousRoute = currentRoute`, and unconditionally writes the Sequencer's
previous-route result to the location; at the first entry of `stepsOrder`
the literal sentinel `"end"` is written. -/
theorem c9_triggerPrevious_unconditional_write (opts : Options)
    (s : RouterState) :
    (triggerPrevious opts s).1.reverseNavigation = true ∧
    (triggerPrevious opts s).1.previousRoute = s.currentRoute ∧
    (triggerPrevious opts s).2 =
      [Action.write (jsString (getPreviousStepRoute opts s.currentRoute))] ∧
    (∀ (r : String) (rest : List String),
        s.currentRoute = some r → opts.stepsOrder = r :: rest →
        lookupStep opts "undefined" = none →
        (triggerPrevious opts s).2 = [Action.write "end"]) := by
  refine ⟨rfl, rfl, rfl, ?_⟩
  intro r rest hcur horder hundef
  have h0 : findIndexFrom r opts.stepsOrder = 0 := by
    rw [horder]
    simp [findIndexFrom]
  have hlog : (triggerPrevious opts s).2 =
      [Action.write (jsString (getPreviousStepRoute opts s.currentRoute))] := rfl
  rw [hlog, hcur]
  have hidx : getIndexFromRoute opts (some r) = 0 := by
    simp [getIndexFromRoute, h0]
  unfold getPreviousStepRoute
  rw [hidx]
  have hj : jsIndex opts.stepsOrder ((0 : Int) - 1) = none := by
    unfold jsIndex
    rw [if_pos (by omega)]
  rw [hj]
  simp [jsString, hundef]

/-- C9 witness: at the first route `"a"` of the concrete registry,
`triggerPrevious` writes the literal token `"end"` to the location. -/
theorem c9_triggerPrevious_unconditional_write_witness :
    (triggerPrevious opts1 { s0 with currentRoute := some "a" }).2
      = [Action.write "end"] :=
  (c9_triggerPrevious_unconditional_write opts1
      { s0 with currentRoute := some "a" }).2.2.2 "a" ["b", "c"] rfl rfl
    (by decide)

/-- C10: the Sequencer's result is the neighbour step object's own `route`
property: whenever `stepsOrder` yields a neighbour key whose step is
registered, `next`/`previous` return that step's `route` field — which is
`undefined` (`none`), not `"end"`, when the step lacks the property. -/
theorem c10_sequencer_reads_step_route (opts : Options) (r : Option String)
    (k : String) (st : Step) :
    (jsIndex opts.stepsOrder (getIndexFromRoute opts r + 1) = some k →
        lookupStep opts k = some st →
        getNextStepRoute opts r = st.route) ∧
    (jsIndex opts.stepsOrder (getIndexFromRoute opts r - 1) = some k →
        lookupStep opts k = some st →
        getPreviousStepRoute opts r = st.route) := by
  constructor
  · intro hj hlk
    unfold getNextStepRoute
    rw [hj]
    simp [jsString, hlk]
  · intro hj hlk
    unfold getPreviousStepRoute
    rw [hj]
    simp [jsString, hlk]

/-- C10 witness: in a registry whose step `"q"` lacks a `route` property,
`next("p")` is the step's absent route (`none`, i.e. `undefined`, not the
sentinel `"end"`), and `previous("q")` is step `"p"`'s own route. -/
theorem c10_sequencer_reads_step_route_witness :
    getNextStepRoute optsNoRoute (some "p") = noRouteStep.route ∧
    getPreviousStepRoute optsNoRoute (some "q") = (okStep "p").route :=
  ⟨(c10_sequencer_reads_step_route optsNoRoute (some "p") "q" noRouteStep).1
      (by decide) (by decide),
   (c10_sequencer_reads_step_route optsNoRoute (some "q") "p" (okStep "p")).2
      (by decide) (by decide)⟩

end TunnelSteps
